import Mathlib

/-!
Verification development for the Toujoubot audio pipeline
(container demuxer, frame format, fan-out sink, content cache,
playback streamer).
-/

namespace Toujoubot

/-- Little-endian 2-byte encoding, as written by `binary.LittleEndian.PutUint16`:
the argument is first truncated to `uint16`, then stored as low byte, high byte. -/
def le16 (n : Nat) : List Nat := [n % 65536 % 256, n % 65536 / 256]

/-- Go `uint16(L) - 4` arithmetic (wrap-around subtraction on 16-bit words). -/
def u16SubFour (L : Nat) : Nat := (L % 65536 + 65532) % 65536

theorem le16_eq (n : Nat) (h : n < 65536) : le16 n = [n % 256, n / 256] := by
  simp [le16, Nat.mod_eq_of_lt h]

/-! ## Container Demuxer

The demuxing of the WebM container is driven by the `mkvparse` library, which
walks the container depth-first and calls the typed handler methods of
`MyParser` (src/unnamed/part_003) on each element, in stream order. We embed
the parse as the stream of handler callbacks the library issues, and
translate the handler bodies from the source. -/

/-- One handler callback issued by the container walk, in stream order.
`binary` carries whether the element id is `SimpleBlockElement` and the raw
element bytes; the other constructors correspond to the remaining handler
methods, whose payloads the handlers ignore. -/
inductive MkvEvent where
  | masterBegin : MkvEvent
  | masterEnd : MkvEvent
  | strElem : MkvEvent
  | intElem : MkvEvent
  | floatElem : MkvEvent
  | dateElem : MkvEvent
  | binary (isSimpleBlock : Bool) (value : List Nat) : MkvEvent
deriving DecidableEq, Repr

/-- Result of running (part of) the parse: either it finished normally having
written `out` to the sink, or a handler panicked after writing `out`. -/
inductive DemuxResult where
  | ok (out : List Nat) : DemuxResult
  | panicked (out : List Nat) : DemuxResult
deriving DecidableEq, Repr

/-- Translation of `MyParser.HandleBinary` (src/unnamed/part_003 lines 11-23).
For a `SimpleBlockElement`, Go computes `uint16(len(value)) - 4` (wrap-around),
stores it little-endian, then appends `value[4:]`; slicing `value[4:]` panics
when `len(value) < 4`, before anything is written. Every other element id
falls to the default branch and writes nothing. -/
def handleBinary (isSimpleBlock : Bool) (value : List Nat) : DemuxResult :=
  if isSimpleBlock then
    if value.length < 4 then .panicked []
    else .ok (le16 (u16SubFour value.length) ++ value.drop 4)
  else .ok []

/-- Dispatch of one callback to the `MyParser` handler methods: only
`HandleBinary` can write; `HandleMasterBegin` (returns `true`: always descend),
`HandleMasterEnd`, `HandleString`, `HandleInteger`, `HandleFloat` and
`HandleDate` all write nothing and return no error. -/
def handleEvent : MkvEvent → DemuxResult
  | .binary sb v => handleBinary sb v
  | _ => .ok []

/-- The whole parse (`mkvparse.Parse` driving `MyParser`): run the handlers
over the callback stream in order, concatenating everything written; a panic
aborts the walk, keeping what was already written. -/
def demuxEvents : List MkvEvent → DemuxResult
  | [] => .ok []
  | e :: rest =>
    match handleEvent e with
    | .panicked o => .panicked o
    | .ok o =>
      match demuxEvents rest with
      | .ok o' => .ok (o ++ o')
      | .panicked o' => .panicked (o ++ o')

example : handleBinary true [1, 2, 3, 4] = .ok [0, 0] := by decide
example : handleBinary true [1, 2, 3] = .panicked [] := by decide
example : handleBinary true [1, 2, 3, 4, 9, 8] = .ok [2, 0, 9, 8] := by decide
example : demuxEvents [.masterBegin, .binary true [1, 2, 3, 4, 9], .masterEnd]
    = .ok [1, 0, 9] := by decide

/-! ## Frame Format -/

/-- The Frame Format writer for one payload, as `HandleBinary` materialises it:
the payload's length as a Go `uint16` stored little-endian, then the payload
bytes, with no padding or terminator. -/
def encodeFrame (p : List Nat) : List Nat := le16 p.length ++ p

/-- The Frame Format writer over an ordered list of payloads: frames are
written back to back. -/
def encodeFrames : List (List Nat) → List Nat
  | [] => []
  | p :: ps => encodeFrame p ++ encodeFrames ps

/-- The Frame Format reader, translated from the frame loop of `Bot.PlayAudio`
(src/unnamed/part_004 lines 231-250): read a 2-byte little-endian length with
`binary.Read` (clean stop on `io.EOF` when the stream is exhausted, error when
only one byte remains), then `io.ReadFull` that many payload bytes (error when
fewer remain). Returns the payloads forwarded in order, and whether the loop
ended with a read error rather than end-of-stream. -/
def readFrames : List Nat → List (List Nat) × Bool
  | [] => ([], false)
  | [_] => ([], true)
  | b0 :: b1 :: rest =>
    let len := b0 + 256 * b1
    if len ≤ rest.length then
      let r := readFrames (rest.drop len)
      (rest.take len :: r.1, r.2)
    else ([], true)
termination_by l => l.length
decreasing_by simp only [List.length_drop, List.length_cons]; omega

example : readFrames (encodeFrames [[5, 6], [], [7]]) = ([[5, 6], [], [7]], false) := by
  simp [readFrames, encodeFrames, encodeFrame, le16]
example : readFrames [2, 0, 9] = ([], true) := by
  simp [readFrames]

/-! ## Spec-side description of the demuxer output (refinement target) -/

/-- Per the spec's words: for an audio block of length `L`, the emitted Frame
is a 2-byte little-endian length equal to `L - 4` followed by the block with
its first 4 bytes stripped. -/
def specBlockFrame (value : List Nat) : List Nat :=
  [(value.length - 4) % 256, (value.length - 4) / 256] ++ value.drop 4

/-- The audio blocks of the callback stream, in stream order. -/
def simpleBlocks : List MkvEvent → List (List Nat)
  | [] => []
  | .binary true v :: rest => v :: simpleBlocks rest
  | _ :: rest => simpleBlocks rest

/-- Per the spec's words: the demuxer's output is the per-block Frames of the
audio blocks, concatenated in stream order; every other element contributes
no output bytes. -/
def specFrameStream (events : List MkvEvent) : List Nat :=
  ((simpleBlocks events).map specBlockFrame).flatten

theorem u16SubFour_eq (L : Nat) (h4 : 4 ≤ L) (hle : L ≤ 65539) :
    u16SubFour L = L - 4 := by
  simp only [u16SubFour]
  omega

theorem demuxEvents_append_ok (pre rest : List MkvEvent) (o : List Nat)
    (hpre : demuxEvents pre = .ok o) :
    demuxEvents (pre ++ rest) =
      match demuxEvents rest with
      | .ok o' => .ok (o ++ o')
      | .panicked o' => .panicked (o ++ o') := by
  induction pre generalizing o with
  | nil =>
    simp only [demuxEvents] at hpre
    cases hpre
    simp only [List.nil_append]
    cases demuxEvents rest <;> simp
  | cons e pre ih =>
    simp only [demuxEvents] at hpre
    cases he : handleEvent e with
    | panicked p => rw [he] at hpre; cases hpre
    | ok p =>
      rw [he] at hpre
      cases hp : demuxEvents pre with
      | panicked q => rw [hp] at hpre; cases hpre
      | ok q =>
        rw [hp] at hpre
        cases hpre
        have hrec := ih q hp
        simp only [List.cons_append, demuxEvents, he, List.append_eq]
        rw [hrec]
        cases demuxEvents rest <;> simp

theorem encodeFrames_cons_stream (p : List Nat) (ps : List (List Nat))
    (hp : p.length < 65536) :
    encodeFrames (p :: ps)
      = p.length % 256 :: p.length / 256 :: (p ++ encodeFrames ps) := by
  simp [encodeFrames, encodeFrame, le16_eq _ hp]

end Toujoubot

namespace Toujoubot

/-- C4: Frame Format round trip. Decoding (with the `Bot.PlayAudio` frame
loop) the byte stream written by the Frame Format writer recovers exactly the
original payloads in the original order, with no read error, provided every
payload fits in the 2-byte length field (length at most 65535). -/
theorem readFrames_encodeFrames (ps : List (List Nat))
    (h : ∀ p ∈ ps, p.length ≤ 65535) :
    readFrames (encodeFrames ps) = (ps, false) := by
  induction ps with
  | nil => simp [encodeFrames, readFrames]
  | cons p ps ih =>
    have hp : p.length < 65536 := Nat.lt_succ_of_le (h p (by simp))
    have harm : p.length % 256 + 256 * (p.length / 256) = p.length :=
      Nat.mod_add_div _ _
    rw [encodeFrames_cons_stream p ps hp]
    simp only [readFrames, harm]
    rw [if_pos (by simp)]
    rw [List.take_left, List.drop_left]
    rw [ih (fun q hq => h q (by simp [hq]))]

/-- Witness for C4 at a concrete payload list. -/
theorem readFrames_encodeFrames_witness :
    (∀ p ∈ [[5, 6], [], [7]], List.length p ≤ 65535) ∧
      readFrames (encodeFrames [[5, 6], [], [7]]) = ([[5, 6], [], [7]], false) :=
  ⟨by decide, readFrames_encodeFrames [[5, 6], [], [7]] (by decide)⟩

/-- C3 counterexample: on an audio block of 65540 bytes (L - 4 = 65536), the
length field that `HandleBinary` writes is the Go `uint16` wrap-around value:
its two bytes are `0, 0`, which decode to `0`, not to `L - 4`. -/
theorem handleBinary_true_long (v : List Nat) (h : ¬ v.length < 4) :
    handleBinary true v = .ok (le16 (u16SubFour v.length) ++ v.drop 4) := by
  simp [handleBinary, h]

theorem demux_oversized_block_length_wraps :
    demuxEvents [.binary true (List.replicate 65540 7)]
        = .ok (0 :: 0 :: (List.replicate 65540 7).drop 4) ∧
      (0 : Nat) + 256 * 0 ≠ 65540 - 4 := by
  refine ⟨?_, by norm_num⟩
  have hlen : (List.replicate 65540 7).length = 65540 := List.length_replicate _ _
  have hb := handleBinary_true_long (List.replicate 65540 7) (by rw [hlen]; norm_num)
  rw [hlen] at hb
  have hsub : u16SubFour 65540 = 0 := by norm_num [u16SubFour]
  rw [hsub] at hb
  have hl16 : le16 0 = [0, 0] := by norm_num [le16]
  rw [hl16] at hb
  show demuxEvents (MkvEvent.binary true (List.replicate 65540 7) :: []) = _
  rw [demuxEvents]
  rw [show handleEvent (MkvEvent.binary true (List.replicate 65540 7))
      = handleBinary true (List.replicate 65540 7) from rfl]
  rw [hb]
  rw [show demuxEvents [] = DemuxResult.ok [] from rfl]
  exact congrArg DemuxResult.ok (by rw [List.append_nil]; rfl)

/-- C3 (amended): for a container whose audio blocks all have length `L` with
`4 < L ≤ 65539` (so that `L - 4` fits the 2-byte length field), the demuxer
succeeds and its output is exactly the spec's frame stream: per audio block,
in stream order, a 2-byte little-endian length equal to `L - 4` followed by
the block with its first 4 bytes stripped; every other element type
contributes no output bytes. -/
theorem demuxEvents_eq_specFrameStream (events : List MkvEvent)
    (h : ∀ v ∈ simpleBlocks events, 4 < v.length ∧ v.length ≤ 65539) :
    demuxEvents events = .ok (specFrameStream events) := by
  induction events with
  | nil => simp [demuxEvents, specFrameStream, simpleBlocks]
  | cons e rest ih =>
    cases e with
    | binary sb v =>
      cases sb with
      | false =>
        have hres := ih (fun u hu => h u (by simp [simpleBlocks, hu]))
        simp [demuxEvents, handleEvent, handleBinary, specFrameStream,
          simpleBlocks, hres]
      | true =>
        obtain ⟨h4, hle⟩ := h v (by simp [simpleBlocks])
        have hres := ih (fun u hu => h u (by simp [simpleBlocks, hu]))
        have hnp : ¬ v.length < 4 := by omega
        have hsub : u16SubFour v.length = v.length - 4 :=
          u16SubFour_eq _ (by omega) hle
        have hl16 : le16 (v.length - 4)
            = [(v.length - 4) % 256, (v.length - 4) / 256] :=
          le16_eq _ (by omega)
        simp [demuxEvents, handleEvent, handleBinary, hnp, hsub, hl16, hres,
          specFrameStream, simpleBlocks, specBlockFrame]
    | masterBegin =>
      have hres := ih (fun u hu => h u (by simp [simpleBlocks, hu]))
      simp [demuxEvents, handleEvent, specFrameStream, simpleBlocks, hres]
    | masterEnd =>
      have hres := ih (fun u hu => h u (by simp [simpleBlocks, hu]))
      simp [demuxEvents, handleEvent, specFrameStream, simpleBlocks, hres]
    | strElem =>
      have hres := ih (fun u hu => h u (by simp [simpleBlocks, hu]))
      simp [demuxEvents, handleEvent, specFrameStream, simpleBlocks, hres]
    | intElem =>
      have hres := ih (fun u hu => h u (by simp [simpleBlocks, hu]))
      simp [demuxEvents, handleEvent, specFrameStream, simpleBlocks, hres]
    | floatElem =>
      have hres := ih (fun u hu => h u (by simp [simpleBlocks, hu]))
      simp [demuxEvents, handleEvent, specFrameStream, simpleBlocks, hres]
    | dateElem =>
      have hres := ih (fun u hu => h u (by simp [simpleBlocks, hu]))
      simp [demuxEvents, handleEvent, specFrameStream, simpleBlocks, hres]

/-- Witness for C3 at a concrete container: a master element wrapping one
audio block, one string element, a non-audio binary element, and a second
audio block. -/
theorem demuxEvents_eq_specFrameStream_witness :
    (∀ v ∈ simpleBlocks [MkvEvent.masterBegin,
        MkvEvent.binary true [1, 2, 3, 4, 9], MkvEvent.strElem,
        MkvEvent.binary false [1, 2], MkvEvent.binary true [0, 0, 0, 0, 8, 7],
        MkvEvent.masterEnd], 4 < v.length ∧ v.length ≤ 65539) ∧
      demuxEvents [MkvEvent.masterBegin,
        MkvEvent.binary true [1, 2, 3, 4, 9], MkvEvent.strElem,
        MkvEvent.binary false [1, 2], MkvEvent.binary true [0, 0, 0, 0, 8, 7],
        MkvEvent.masterEnd]
        = .ok (specFrameStream [MkvEvent.masterBegin,
            MkvEvent.binary true [1, 2, 3, 4, 9], MkvEvent.strElem,
            MkvEvent.binary false [1, 2],
            MkvEvent.binary true [0, 0, 0, 0, 8, 7], MkvEvent.masterEnd]) :=
  ⟨by decide, demuxEvents_eq_specFrameStream _ (by decide)⟩

/-- C1 counterexample: a container holding one audio block of exactly 4 bytes
(total length at most 4) does not fail the parse at all. The demuxer returns
success and its output is exactly `[0, 0]`, the encoding of a zero-length
frame, which the Frame Format reader indeed decodes as one empty payload. -/
theorem demux_len4_block_emits_empty_frame :
    demuxEvents [.binary true [1, 2, 3, 4]] = .ok [0, 0] ∧
      readFrames [0, 0] = ([[]], false) := by
  refine ⟨by decide, ?_⟩
  simp [readFrames]

/-- C1 (amended): an audio block of fewer than 4 bytes makes `HandleBinary`
panic on the slice `value[4:]` before writing anything, so the whole walk
aborts at that block with a runtime panic (not a returned parse error) and no
event after the panicking block contributes any output; an audio block of
exactly 4 bytes is not treated as malformed: the handler succeeds and emits a
zero-length frame. -/
theorem demux_short_block_amended (v w : List Nat) (pre post : List MkvEvent)
    (o : List Nat) (hv : v.length < 4) (hw : w.length = 4)
    (hpre : demuxEvents pre = .ok o) :
    handleBinary true v = .panicked [] ∧
    demuxEvents (pre ++ .binary true v :: post) = .panicked o ∧
    handleBinary true w = .ok [0, 0] := by
  refine ⟨by simp [handleBinary, hv], ?_, ?_⟩
  · rw [demuxEvents_append_ok pre _ o hpre]
    have hbad : demuxEvents (.binary true v :: post) = .panicked [] := by
      simp [demuxEvents, handleEvent, handleBinary, hv]
    rw [hbad]
    simp
  · have hnp : ¬ w.length < 4 := by omega
    have hdrop : w.drop 4 = [] := List.drop_eq_nil_of_le (by omega)
    simp [handleBinary, hnp, hdrop, hw, u16SubFour, le16]

/-- Witness for C1's amended statement at concrete inputs: a 1-byte audio
block after a healthy block, with a trailing element that contributes
nothing, and a separate 4-byte block. -/
theorem demux_short_block_amended_witness :
    (([9] : List Nat).length < 4 ∧ ([5, 6, 7, 8] : List Nat).length = 4 ∧
      demuxEvents [MkvEvent.binary true [1, 2, 3, 4, 9]] = .ok [1, 0, 9]) ∧
    (handleBinary true [9] = .panicked [] ∧
      demuxEvents ([MkvEvent.binary true [1, 2, 3, 4, 9]] ++
          MkvEvent.binary true [9] :: [MkvEvent.strElem]) = .panicked [1, 0, 9] ∧
      handleBinary true [5, 6, 7, 8] = .ok [0, 0]) :=
  ⟨⟨by decide, by decide, by decide⟩,
    demux_short_block_amended [9] [5, 6, 7, 8] [MkvEvent.binary true [1, 2, 3, 4, 9]]
      [MkvEvent.strElem] [1, 0, 9] (by decide) (by decide) (by decide)⟩

/-! ## Fan-out Sink

`MultiWriter.Write` (src/pkg/models/models.go lines 34-42) loops over the
wrapped `io.Writer`s in their fixed order and returns the first error it
meets without touching the remaining writers. We model each wrapped sink as
an in-memory writer with its accumulated content, a count of write attempts
made on it, and a behaviour flag: a healthy sink appends the whole buffer and
reports success, a broken one reports its error code and appends nothing. -/

/-- One wrapped in-memory sink. -/
structure SimSink where
  content : List Nat
  attempts : Nat
  broken : Bool
  errCode : Nat
deriving DecidableEq, Repr

/-- One `Write` call on a wrapped sink: it is attempted, and either fails
with its error code or appends the buffer. -/
def sinkWrite (w : SimSink) (p : List Nat) : SimSink × Option Nat :=
  if w.broken then ({ w with attempts := w.attempts + 1 }, some w.errCode)
  else ({ w with content := w.content ++ p, attempts := w.attempts + 1 }, none)

/-- Translation of `MultiWriter.Write`: write `p` to each wrapped sink in order; on the
first error, return it immediately, leaving the remaining sinks untouched. -/
def multiWrite (ws : List SimSink) (p : List Nat) : List SimSink × Option Nat :=
  match ws with
  | [] => ([], none)
  | w :: rest =>
    let r := sinkWrite w p
    match r.2 with
    | some err => (r.1 :: rest, some err)
    | none =>
      let rr := multiWrite rest p
      (r.1 :: rr.1, rr.2)

/-- A sequence of fan-out writes, one per buffer, stopping at the first
failed fan-out write (as the conversion loop does). -/
def multiWriteAll (ws : List SimSink) : List (List Nat) → List SimSink × Option Nat
  | [] => (ws, none)
  | p :: ps =>
    let r := multiWrite ws p
    match r.2 with
    | some err => (r.1, some err)
    | none => multiWriteAll r.1 ps

example : multiWrite [⟨[], 0, false, 0⟩, ⟨[], 0, true, 3⟩, ⟨[], 0, false, 0⟩] [1, 2]
    = ([⟨[1, 2], 1, false, 0⟩, ⟨[], 1, true, 3⟩, ⟨[], 0, false, 0⟩], some 3) := by decide

/-- The effect of a successful write on one healthy sink. -/
def sinkAppend (p : List Nat) (w : SimSink) : SimSink :=
  { w with content := w.content ++ p, attempts := w.attempts + 1 }

theorem multiWrite_ok_content (ws : List SimSink) (p : List Nat)
    (h : ∀ w ∈ ws, w.broken = false) :
    multiWrite ws p = (ws.map (sinkAppend p), none) := by
  induction ws with
  | nil => simp [multiWrite]
  | cons w rest ih =>
    have hw : w.broken = false := h w (by simp)
    have hrest := ih (fun u hu => h u (by simp [hu]))
    simp [multiWrite, sinkWrite, sinkAppend, hw, hrest]

/-- The cumulative effect of fan-out writing a whole buffer list on one
healthy sink. -/
def sinkAppendAll (ps : List (List Nat)) (w : SimSink) : SimSink :=
  { w with content := w.content ++ ps.flatten, attempts := w.attempts + ps.length }

theorem map_sinkAppendAll_nil (ws : List SimSink) :
    ws.map (sinkAppendAll []) = ws := by
  induction ws with
  | nil => rfl
  | cons a as ih => simp [sinkAppendAll, ih]

theorem multiWriteAll_ok (ps : List (List Nat)) (ws : List SimSink)
    (h : ∀ w ∈ ws, w.broken = false) :
    multiWriteAll ws ps = (ws.map (sinkAppendAll ps), none) := by
  induction ps generalizing ws with
  | nil =>
    simp [multiWriteAll, map_sinkAppendAll_nil]
  | cons p ps ih =>
    have hmap : ∀ u ∈ ws.map (sinkAppend p), u.broken = false := by
      intro u hu
      obtain ⟨v, hv, rfl⟩ := List.mem_map.mp hu
      simpa [sinkAppend] using h v hv
    simp only [multiWriteAll, multiWrite_ok_content ws p h, ih _ hmap, List.map_map]
    refine congrArg (fun l => (l, none)) (List.map_congr_left ?_)
    intro w _
    simp [sinkAppend, sinkAppendAll, Function.comp]
    omega

/-- C5: when every wrapped sink accepts every write, a fan-out write sequence
over initially empty sinks succeeds and leaves every sink holding
byte-for-byte identical content, equal to the concatenation of the written
buffers. -/
theorem multiWriteAll_fanout_integrity (ws : List SimSink) (ps : List (List Nat))
    (hok : ∀ w ∈ ws, w.broken = false) (hempty : ∀ w ∈ ws, w.content = []) :
    (multiWriteAll ws ps).2 = none ∧
      ∀ w ∈ (multiWriteAll ws ps).1, w.content = ps.flatten := by
  rw [multiWriteAll_ok ps ws hok]
  refine ⟨rfl, ?_⟩
  intro w hw
  obtain ⟨u, hu, rfl⟩ := List.mem_map.mp hw
  simp [sinkAppendAll, hempty u hu]

/-- Witness for C5: three empty healthy sinks, two buffers. -/
theorem multiWriteAll_fanout_integrity_witness :
    ((∀ w ∈ [(⟨[], 0, false, 0⟩ : SimSink), ⟨[], 5, false, 1⟩, ⟨[], 0, false, 2⟩],
        SimSink.broken w = false) ∧
      (∀ w ∈ [(⟨[], 0, false, 0⟩ : SimSink), ⟨[], 5, false, 1⟩, ⟨[], 0, false, 2⟩],
        SimSink.content w = [])) ∧
    ((multiWriteAll [⟨[], 0, false, 0⟩, ⟨[], 5, false, 1⟩, ⟨[], 0, false, 2⟩]
        [[1, 2], [3]]).2 = none ∧
      ∀ w ∈ (multiWriteAll [⟨[], 0, false, 0⟩, ⟨[], 5, false, 1⟩, ⟨[], 0, false, 2⟩]
        [[1, 2], [3]]).1, SimSink.content w = [[1, 2], [3]].flatten) :=
  ⟨⟨by decide, by decide⟩,
    multiWriteAll_fanout_integrity _ [[1, 2], [3]] (by decide) (by decide)⟩

/-- Result of the one attempted-but-failed write on the failing sink: its
attempt is recorded, its content is untouched. -/
def bumpSink (w : SimSink) : SimSink := { w with attempts := w.attempts + 1 }

theorem multiWrite_first_error (p : List Nat) (ws1 : List SimSink) (w : SimSink)
    (ws2 : List SimSink) (h1 : ∀ u ∈ ws1, u.broken = false) (hw : w.broken = true) :
    multiWrite (ws1 ++ w :: ws2) p
      = (ws1.map (sinkAppend p) ++ bumpSink w :: ws2, some w.errCode) := by
  induction ws1 with
  | nil => simp [multiWrite, sinkWrite, hw, bumpSink]
  | cons a as ih =>
    have ha : a.broken = false := h1 a (by simp)
    have hrec := ih (fun u hu => h1 u (by simp [hu]))
    simp [multiWrite, sinkWrite, ha, sinkAppend, hrec]

/-- C6: the fan-out write visits the wrapped sinks in their fixed order.  If
the first failing sink is `w` (every sink before it succeeds), the write
returns `w`'s error immediately: the sinks before `w` have the buffer
appended and one more attempt recorded, `w` records the failed attempt, and
the sinks after `w` are returned exactly as they were, never attempted.  If
instead every sink accepts the write, the fan-out write returns success. -/
theorem multiWrite_error_short_circuits (ws1 ws2 : List SimSink) (w : SimSink)
    (p : List Nat) (vs : List SimSink) (h1 : ∀ u ∈ ws1, u.broken = false)
    (hw : w.broken = true) (hvs : ∀ u ∈ vs, u.broken = false) :
    multiWrite (ws1 ++ w :: ws2) p
        = (ws1.map (sinkAppend p) ++ bumpSink w :: ws2, some w.errCode) ∧
      (multiWrite vs p).2 = none :=
  ⟨multiWrite_first_error p ws1 w ws2 h1 hw,
    by rw [multiWrite_ok_content vs p hvs]⟩

/-- Witness for C6: one healthy sink, then a broken sink with error code 7,
then a healthy sink that must stay untouched. -/
theorem multiWrite_error_short_circuits_witness :
    ((∀ u ∈ [(⟨[9], 0, false, 0⟩ : SimSink)], SimSink.broken u = false) ∧
      SimSink.broken (⟨[], 2, true, 7⟩ : SimSink) = true ∧
      (∀ u ∈ [(⟨[], 0, false, 0⟩ : SimSink), ⟨[4], 1, false, 5⟩],
        SimSink.broken u = false)) ∧
    (multiWrite ([(⟨[9], 0, false, 0⟩ : SimSink)] ++ (⟨[], 2, true, 7⟩ : SimSink)
        :: [(⟨[0], 3, false, 4⟩ : SimSink)]) [1, 2]
        = ([(⟨[9], 0, false, 0⟩ : SimSink)].map (sinkAppend [1, 2])
            ++ bumpSink ⟨[], 2, true, 7⟩ :: [(⟨[0], 3, false, 4⟩ : SimSink)], some 7) ∧
      (multiWrite [(⟨[], 0, false, 0⟩ : SimSink), ⟨[4], 1, false, 5⟩] [1, 2]).2 = none) :=
  ⟨⟨by decide, by decide, by decide⟩,
    multiWrite_error_short_circuits [⟨[9], 0, false, 0⟩] [⟨[0], 3, false, 4⟩]
      ⟨[], 2, true, 7⟩ [1, 2] [⟨[], 0, false, 0⟩, ⟨[4], 1, false, 5⟩]
      (by decide) (by decide) (by decide)⟩

/-! ## Content Cache and audio processor -/

/-- The `Processor` struct (src/pkg/audioProcessor/processor.go lines 22-25): the yt-dlp
path and the in-memory map of YouTube video ID to DCA file path. The Go map
is embedded as an association list in which assignment prepends, so the
newest binding shadows older ones, matching map overwrite. -/
structure Processor where
  ytDlpPath : String
  audioCache : List (String × String)
deriving DecidableEq, Repr

/-- Translation of `NewProcessor` (processor.go lines 28-40): a fresh processor whose
`AudioCache` is a newly allocated empty map; on non-Windows platforms the
yt-dlp path is `cmd/yt-dlp/yt-dlp`. -/
def NewProcessor : Processor :=
  { ytDlpPath := "cmd/yt-dlp/yt-dlp", audioCache := [] }

/-- Map read `p.AudioCache[videoID]`. -/
def lookupCache (c : List (String × String)) (id : String) : Option String :=
  match c with
  | [] => none
  | (k, v) :: rest => if k = id then some v else lookupCache rest id

/-- Map assignment `p.AudioCache[videoID] = dcaFilePath`
(src/unnamed/part_004 line 146). -/
def registerCache (c : List (String × String)) (id path : String) :
    List (String × String) :=
  (id, path) :: c

/-- The destination path `filepath.Join("audio", videoID+".dca")` (processor.go lines 161, 220). -/
def dcaPath (videoID : String) : String := "audio/" ++ videoID ++ ".dca"

/-- Outcome of one `ProcessYouTubeAudio` call: the returned DCA file path (if
any) and whether the acquisition collaborator (yt-dlp metadata fetch and the
HTTP media download) was invoked. -/
structure ProcOutcome where
  resultPath : Option String
  invokedAcquisition : Bool
deriving DecidableEq, Repr

/-- Translation of `Processor.ProcessYouTubeAudio` (processor.go lines 158-268), abstracted
over the filesystem `fs` (the set of existing file paths) and the external
collaborators. If a `videoID` was supplied and `audio/<videoID>.dca` already
exists (the `os.Stat` check at lines 160-170), the call returns that path at
once, invoking neither yt-dlp nor the network. Otherwise it runs the
acquisition chain (lines 172-246), whose success `acqOk` and reported id
`acqVideoID` abstract the collaborator, spawns the conversion task and
returns the destination path. -/
def processYouTubeAudio (fs : List String) (acqOk : Bool) (acqVideoID : String)
    (videoID : String) : ProcOutcome :=
  if videoID ≠ "" ∧ dcaPath videoID ∈ fs then
    { resultPath := some (dcaPath videoID), invokedAcquisition := false }
  else
    let vid := if videoID = "" then acqVideoID else videoID
    if acqOk then { resultPath := some (dcaPath vid), invokedAcquisition := true }
    else { resultPath := none, invokedAcquisition := true }

/-- The in-memory cache-hit check of `Bot.HandleMessage` (src/unnamed/part_004
lines 77 and 105-115): the handler first constructs `NewProcessor` and then
reads `processor.AudioCache[videoID]`. -/
def handleMessageCacheCheck (videoID : String) : Option String :=
  lookupCache NewProcessor.audioCache videoID

/-- C9: once a ContentID has been registered with a complete backing file,
looking the id up returns exactly the registered path (and, the cache map
being read-only under lookups, every repetition of the lookup returns the
same path), and a subsequent processing request for that id takes the
existing-file branch: it returns the same path without invoking the
acquisition collaborator. -/
theorem cache_register_idempotent (c : List (String × String)) (id : String)
    (fs : List String) (acqOk : Bool) (acqVid : String)
    (hid : id ≠ "") (hfs : dcaPath id ∈ fs) :
    lookupCache (registerCache c id (dcaPath id)) id = some (dcaPath id) ∧
      processYouTubeAudio fs acqOk acqVid id
        = { resultPath := some (dcaPath id), invokedAcquisition := false } := by
  constructor
  · simp [lookupCache, registerCache]
  · simp [processYouTubeAudio, hid, hfs]

/-- Witness for C9 at a concrete cache, id and filesystem. -/
theorem cache_register_idempotent_witness :
    (("dQw4w9WgXcQ" : String) ≠ "" ∧
      dcaPath "dQw4w9WgXcQ" ∈ ["audio/other.dca", dcaPath "dQw4w9WgXcQ"]) ∧
    (lookupCache (registerCache [("old", "audio/old.dca")] "dQw4w9WgXcQ"
        (dcaPath "dQw4w9WgXcQ")) "dQw4w9WgXcQ" = some (dcaPath "dQw4w9WgXcQ") ∧
      processYouTubeAudio ["audio/other.dca", dcaPath "dQw4w9WgXcQ"] true "x"
          "dQw4w9WgXcQ"
        = { resultPath := some (dcaPath "dQw4w9WgXcQ"),
            invokedAcquisition := false }) :=
  ⟨⟨by decide, by decide⟩,
    cache_register_idempotent [("old", "audio/old.dca")] "dQw4w9WgXcQ"
      ["audio/other.dca", dcaPath "dQw4w9WgXcQ"] true "x" (by decide) (by decide)⟩

/-- C10: each message is handled with a freshly constructed processor whose
in-memory cache map is empty, so the handler's cache-hit check can never
observe an entry registered while handling an earlier message; any
deduplication across requests comes only from the on-disk existence check
inside `ProcessYouTubeAudio`, and when that check fails too the acquisition
collaborator is invoked. -/
theorem handleMessage_fresh_processor (videoID : String) (fs : List String)
    (acqOk : Bool) (acqVid : String) (h : videoID = "" ∨ dcaPath videoID ∉ fs) :
    NewProcessor.audioCache = [] ∧
      handleMessageCacheCheck videoID = none ∧
      (processYouTubeAudio fs acqOk acqVid videoID).invokedAcquisition = true := by
  refine ⟨rfl, by simp [handleMessageCacheCheck, NewProcessor, lookupCache], ?_⟩
  have hc : ¬ (videoID ≠ "" ∧ dcaPath videoID ∈ fs) := by
    rcases h with h | h
    · exact fun hc => hc.1 h
    · exact fun hc => h hc.2
  cases acqOk <;> simp [processYouTubeAudio, hc]

/-- Witness for C10: a video id whose file is absent from the filesystem. -/
theorem handleMessage_fresh_processor_witness :
    (("abcdefghijk" : String) = "" ∨ dcaPath "abcdefghijk" ∉ ["audio/zzz.dca"]) ∧
    (NewProcessor.audioCache = [] ∧
      handleMessageCacheCheck "abcdefghijk" = none ∧
      (processYouTubeAudio ["audio/zzz.dca"] true "q"
        "abcdefghijk").invokedAcquisition = true) :=
  ⟨by decide,
    handleMessage_fresh_processor "abcdefghijk" ["audio/zzz.dca"] true "q" (by decide)⟩

/-! ## Playback Streamer

`Bot.PlayAudio` (src/unnamed/part_004 lines 175-253). The per-guild active
session marker is the entry of `Bot.VoiceConnections`; the playback sink is
the Discord voice connection, whose externally visible calls we record as an
ordered event list. -/

/-- A voice connection as far as `PlayAudio` inspects it: the channel it is
bound to. -/
structure VoiceConn where
  channelID : String
deriving DecidableEq, Repr

/-- Map read `b.VoiceConnections[guildID]`. -/
def vcLookup (m : List (String × VoiceConn)) (g : String) : Option VoiceConn :=
  match m with
  | [] => none
  | (k, v) :: rest => if k = g then some v else vcLookup rest g

/-- Map assignment `b.VoiceConnections[guildID] = vc` (line 194). -/
def vcInsert (m : List (String × VoiceConn)) (g : String) (vc : VoiceConn) :
    List (String × VoiceConn) :=
  (g, vc) :: m

/-- Map deletion `delete(b.VoiceConnections, guildID)` (line 252). -/
def vcErase (m : List (String × VoiceConn)) (g : String) :
    List (String × VoiceConn) :=
  match m with
  | [] => []
  | (k, v) :: rest => if k = g then vcErase rest g else (k, v) :: vcErase rest g

/-- The externally visible actions of `PlayAudio`, in order. The first four
stand for the `ChannelMessageSend` calls on the respective paths. -/
inductive PlayEvent where
  | msgAlreadyInAnotherChannel : PlayEvent
  | msgJoinError : PlayEvent
  | msgFrameReadError : PlayEvent
  | msgDataReadError : PlayEvent
  | joinChannel (guildID channelID : String) : PlayEvent
  | speakStart : PlayEvent
  | sendFrame (frame : List Nat) : PlayEvent
  | disconnect : PlayEvent
  | clearMarker (guildID : String) : PlayEvent
  | speakStop : PlayEvent
  | closeSource : PlayEvent
deriving DecidableEq, Repr

/-- The frame-forwarding loop (lines 231-250): read a 2-byte little-endian
length (`binary.Read`; a clean `io.EOF` on an exhausted stream exits the
loop, a one-byte remainder reports a frame-read error and exits), read the
payload (`io.ReadFull`; a short read reports a data-read error and exits), and
send each payload to `vc.OpusSend` in order. -/
def playLoopEvents : List Nat → List PlayEvent
  | [] => []
  | [_] => [.msgFrameReadError]
  | b0 :: b1 :: rest =>
    let len := b0 + 256 * b1
    if len ≤ rest.length then
      .sendFrame (rest.take len) :: playLoopEvents (rest.drop len)
    else [.msgDataReadError]
termination_by l => l.length
decreasing_by simp only [List.length_drop, List.length_cons]; omega

/-- The tail of `PlayAudio` once a usable voice connection is held (lines
226-253): the deferred source close is registered, `vc.Speaking(true)` runs,
the deferred `vc.Speaking(false)` is registered, the frame loop runs, then
`vc.Disconnect()` and `delete(b.VoiceConnections, guildID)`, and finally the
deferred calls fire in last-in-first-out order. -/
def runSession (m : List (String × VoiceConn)) (g : String) (source : List Nat) :
    List (String × VoiceConn) × List PlayEvent :=
  (vcErase m g,
    .speakStart :: playLoopEvents source
      ++ [.disconnect, .clearMarker g, .speakStop, .closeSource])

/-- Translation of `Bot.PlayAudio` (lines 175-253), abstracted over whether
`ChannelVoiceJoin` succeeds and with the audio source given as its bytes.
Returns the updated `VoiceConnections` map and the ordered visible events. -/
def playAudio (m : List (String × VoiceConn)) (guildID voiceChannelID : String)
    (joinOk : Bool) (source : List Nat) :
    List (String × VoiceConn) × List PlayEvent :=
  match vcLookup m guildID with
  | some vc =>
    if vc.channelID ≠ voiceChannelID then
      (m, [.msgAlreadyInAnotherChannel])
    else
      runSession m guildID source
  | none =>
    if joinOk then
      let r := runSession (vcInsert m guildID ⟨voiceChannelID⟩) guildID source
      (r.1, .joinChannel guildID voiceChannelID :: r.2)
    else (m, [.msgJoinError])

theorem vcLookup_vcErase (m : List (String × VoiceConn)) (g : String) :
    vcLookup (vcErase m g) g = none := by
  induction m with
  | nil => rfl
  | cons kv rest ih =>
    obtain ⟨k, v⟩ := kv
    by_cases hk : k = g
    · simp [vcErase, hk, ih]
    · simp [vcErase, vcLookup, hk, ih]

/-- C7: a play request for a guild whose `VoiceConnections` entry is bound to
a different voice channel is rejected with the explicit
already-in-another-channel message; the map, and in particular the existing
session's entry, is returned unchanged. -/
theorem playAudio_rejects_other_channel (m : List (String × VoiceConn))
    (guildID chanID : String) (joinOk : Bool) (source : List Nat)
    (vc : VoiceConn) (hvc : vcLookup m guildID = some vc)
    (hne : vc.channelID ≠ chanID) :
    playAudio m guildID chanID joinOk source = (m, [.msgAlreadyInAnotherChannel]) ∧
      vcLookup (playAudio m guildID chanID joinOk source).1 guildID = some vc := by
  have h1 : playAudio m guildID chanID joinOk source
      = (m, [.msgAlreadyInAnotherChannel]) := by
    simp [playAudio, hvc, hne]
  exact ⟨h1, by rw [h1]; exact hvc⟩

/-- Witness for C7: a guild bound to channel `c1` receiving a request for
channel `c2`. -/
theorem playAudio_rejects_other_channel_witness :
    (vcLookup [("g", ⟨"c1"⟩)] "g" = some ⟨"c1"⟩ ∧
      VoiceConn.channelID ⟨"c1"⟩ ≠ "c2") ∧
    (playAudio [("g", ⟨"c1"⟩)] "g" "c2" true [1, 0, 5]
        = ([("g", ⟨"c1"⟩)], [.msgAlreadyInAnotherChannel]) ∧
      vcLookup (playAudio [("g", ⟨"c1"⟩)] "g" "c2" true [1, 0, 5]).1 "g"
        = some ⟨"c1"⟩) :=
  ⟨⟨by decide, by decide⟩,
    playAudio_rejects_other_channel [("g", ⟨"c1"⟩)] "g" "c2" true [1, 0, 5]
      ⟨"c1"⟩ (by decide) (by decide)⟩

/-- C8: whenever a playback session is actually entered (no session exists
for the guild and the join succeeds, or the existing entry is bound to the
requested channel), the visible events are exactly: the join (when one
happens), then start-speaking, then the frame loop's forwarded frames and
possible error report, then disconnect, the clearing of the guild's marker,
stop-speaking, and the source close. Thus start-speaking precedes every
forwarded frame and stop-speaking follows the loop's last event whether the
loop ended at end-of-stream or on a read error; afterwards the guild's
marker is gone, so a play request for the same destination enters a fresh
session instead of being rejected. -/
theorem playAudio_session_lifecycle (m : List (String × VoiceConn))
    (guildID chanID : String) (source source2 : List Nat)
    (h : vcLookup m guildID = none ∨
      ∃ vc, vcLookup m guildID = some vc ∧ vc.channelID = chanID) :
    (playAudio m guildID chanID true source).2
        = (match vcLookup m guildID with
            | none => [PlayEvent.joinChannel guildID chanID]
            | some _ => ([] : List PlayEvent))
          ++ PlayEvent.speakStart :: playLoopEvents source
          ++ [.disconnect, .clearMarker guildID, .speakStop, .closeSource] ∧
      vcLookup (playAudio m guildID chanID true source).1 guildID = none ∧
      (playAudio (playAudio m guildID chanID true source).1 guildID chanID
          true source2).2
        = PlayEvent.joinChannel guildID chanID
            :: PlayEvent.speakStart :: playLoopEvents source2
            ++ [.disconnect, .clearMarker guildID, .speakStop, .closeSource] := by
  have hsecond : ∀ m2 : List (String × VoiceConn), vcLookup m2 guildID = none →
      (playAudio m2 guildID chanID true source2).2
        = PlayEvent.joinChannel guildID chanID
            :: PlayEvent.speakStart :: playLoopEvents source2
            ++ [.disconnect, .clearMarker guildID, .speakStop, .closeSource] := by
    intro m2 hm2
    simp [playAudio, hm2, runSession]
  rcases h with hnone | ⟨vc, hvc, hch⟩
  · have hres : playAudio m guildID chanID true source
        = (vcErase (vcInsert m guildID ⟨chanID⟩) guildID,
          PlayEvent.joinChannel guildID chanID
            :: PlayEvent.speakStart :: playLoopEvents source
            ++ [.disconnect, .clearMarker guildID, .speakStop, .closeSource]) := by
      simp [playAudio, hnone, runSession]
    have hera : vcLookup (vcErase (vcInsert m guildID ⟨chanID⟩) guildID) guildID
        = none := vcLookup_vcErase _ _
    refine ⟨?_, ?_, ?_⟩
    · rw [hres, hnone]; simp
    · rw [hres]; exact hera
    · rw [hres]; exact hsecond _ hera
  · have hres : playAudio m guildID chanID true source
        = (vcErase m guildID,
          PlayEvent.speakStart :: playLoopEvents source
            ++ [.disconnect, .clearMarker guildID, .speakStop, .closeSource]) := by
      simp [playAudio, hvc, hch, runSession]
    have hera : vcLookup (vcErase m guildID) guildID = none := vcLookup_vcErase _ _
    refine ⟨?_, ?_, ?_⟩
    · rw [hres, hvc]; simp
    · rw [hres]; exact hera
    · rw [hres]; exact hsecond _ hera

/-- Witness for C8: an empty map, a healthy two-frame source, and a
truncated second source that ends in a read error. -/
theorem playAudio_session_lifecycle_witness :
    (vcLookup [] "g" = none ∨
      ∃ vc, vcLookup [] "g" = some vc ∧ VoiceConn.channelID vc = "c") ∧
    ((playAudio [] "g" "c" true [1, 0, 5, 0, 0]).2
        = (match vcLookup [] "g" with
            | none => [PlayEvent.joinChannel "g" "c"]
            | some _ => ([] : List PlayEvent))
          ++ PlayEvent.speakStart :: playLoopEvents [1, 0, 5, 0, 0]
          ++ [.disconnect, .clearMarker "g", .speakStop, .closeSource] ∧
      vcLookup (playAudio [] "g" "c" true [1, 0, 5, 0, 0]).1 "g" = none ∧
      (playAudio (playAudio [] "g" "c" true [1, 0, 5, 0, 0]).1 "g" "c"
          true [9, 0]).2
        = PlayEvent.joinChannel "g" "c"
            :: PlayEvent.speakStart :: playLoopEvents [9, 0]
            ++ [.disconnect, .clearMarker "g", .speakStop, .closeSource]) :=
  ⟨Or.inl rfl,
    playAudio_session_lifecycle [] "g" "c" [1, 0, 5, 0, 0] [9, 0] (Or.inl rfl)⟩

/-! ## Cache visibility across the conversion task

The cache-miss path of `Bot.HandleMessage` (src/unnamed/part_004 lines
125-152) calls `ProcessYouTubeAudio`, which fetches the metadata (processor.go
lines 193-217), creates the destination file (line 226), spawns the
conversion goroutine (line 249) and returns (line 267) while that goroutine
is still writing; the handler then registers the ContentID → path mapping
(line 146) and starts playback (line 151). The conversion goroutine writes
the frames, logs completion (line 264) and only then runs its deferred file
close (line 251). We model each task as its ordered event list and an
execution as an order-preserving interleaving of the two. -/

/-- The cache-relevant events of one processing request. -/
inductive CacheEvent where
  | acquireMetadata : CacheEvent
  | createFile : CacheEvent
  | spawnConversion : CacheEvent
  | processReturn : CacheEvent
  | registerPath : CacheEvent
  | playbackStart : CacheEvent
  | convWriteFrames : CacheEvent
  | convFinishLog : CacheEvent
  | convCloseFile : CacheEvent
deriving DecidableEq, Repr

/-- The message-handler task's events, in program order. -/
def handlerEvents : List CacheEvent :=
  [.acquireMetadata, .createFile, .spawnConversion, .processReturn,
    .registerPath, .playbackStart]

/-- The conversion task's events, in program order (the deferred
`dcaFile.Close()` runs last). -/
def convEvents : List CacheEvent :=
  [.convWriteFrames, .convFinishLog, .convCloseFile]

/-- Interleaving relation: `Merge xs ys zs` says `zs` is an interleaving of `xs` and `ys`, each kept in
its own order — the executions the Go scheduler can produce for two
unsynchronised tasks. -/
inductive Merge : List CacheEvent → List CacheEvent → List CacheEvent → Prop where
  | nil : Merge [] [] []
  | left (x : CacheEvent) {xs ys zs : List CacheEvent} :
      Merge xs ys zs → Merge (x :: xs) ys (x :: zs)
  | right (y : CacheEvent) {xs ys zs : List CacheEvent} :
      Merge xs ys zs → Merge xs (y :: ys) (y :: zs)

/-- Whether `c` occurs in the list. -/
def occurs (c : CacheEvent) : List CacheEvent → Bool
  | [] => false
  | e :: rest => if e = c then true else occurs c rest

/-- Whether `a` occurs strictly before `b`. -/
def precedes (a b : CacheEvent) : List CacheEvent → Bool
  | [] => false
  | e :: rest => if e = a then occurs b rest
    else if e = b then false else precedes a b rest

theorem merge_append (xs ys : List CacheEvent) : Merge xs ys (xs ++ ys) := by
  induction xs with
  | nil =>
    simp only [List.nil_append]
    induction ys with
    | nil => exact .nil
    | cons y ys ihy => exact .right y ihy
  | cons x xs ihx => exact .left x ihx

theorem merge_occurs_left {xs ys zs : List CacheEvent} (hm : Merge xs ys zs)
    (c : CacheEvent) : occurs c xs = true → occurs c zs = true := by
  induction hm with
  | nil => intro h; simp [occurs] at h
  | left x hm ih =>
    intro h
    by_cases hx : x = c
    · simp [occurs, hx]
    · simp [occurs, hx] at h ⊢
      exact ih h
  | right y hm ih =>
    intro h
    by_cases hy : y = c
    · simp [occurs, hy]
    · simp [occurs, hy]
      exact ih h

theorem merge_precedes {xs ys zs : List CacheEvent} (hm : Merge xs ys zs)
    (a b : CacheEvent) : occurs a ys = false → occurs b ys = false →
    precedes a b xs = true → precedes a b zs = true := by
  induction hm with
  | nil => intro _ _ hp; simp [precedes] at hp
  | left x hm ih =>
    intro ha hb hp
    by_cases hxa : x = a
    · subst hxa
      simp only [precedes, if_pos rfl] at hp ⊢
      exact merge_occurs_left hm b hp
    · by_cases hxb : x = b
      · subst hxb
        simp [precedes, hxa] at hp
      · simp only [precedes, if_neg hxa, if_neg hxb] at hp ⊢
        exact ih ha hb hp
  | right y hm ih =>
    intro ha hb hp
    have hya : y ≠ a := by
      intro hh
      subst hh
      simp [occurs] at ha
    have hyb : y ≠ b := by
      intro hh
      subst hh
      simp [occurs] at hb
    rw [occurs, if_neg hya] at ha
    rw [occurs, if_neg hyb] at hb
    simp only [precedes, if_neg hya, if_neg hyb]
    exact ih ha hb hp

/-- C2 counterexample: the schedule that runs the whole handler before the
conversion task is a legal interleaving of the two tasks, and in it the
ContentID → path mapping is registered (and so visible to lookups) strictly
before the conversion task has closed — or even written — the backing file;
conversion completion never precedes registration there. -/
theorem register_visible_before_file_complete :
    Merge handlerEvents convEvents (handlerEvents ++ convEvents) ∧
      precedes CacheEvent.registerPath CacheEvent.convCloseFile
        (handlerEvents ++ convEvents) = true ∧
      precedes CacheEvent.convCloseFile CacheEvent.registerPath
        (handlerEvents ++ convEvents) = false :=
  ⟨merge_append handlerEvents convEvents, by decide, by decide⟩

/-- C2 (amended): registration is sequenced only against the handler's own
program order, not against the conversion task. In every legal interleaving
the mapping is registered after the conversion has been spawned and after
`ProcessYouTubeAudio` has returned, but nothing orders it after the file is
fully written and closed, so a lookup may observe a path whose backing file
is still being written. -/
theorem register_after_spawn_not_after_close (tr : List CacheEvent)
    (hm : Merge handlerEvents convEvents tr) :
    precedes CacheEvent.spawnConversion CacheEvent.registerPath tr = true ∧
      precedes CacheEvent.processReturn CacheEvent.registerPath tr = true :=
  ⟨merge_precedes hm _ _ (by decide) (by decide) (by decide),
    merge_precedes hm _ _ (by decide) (by decide) (by decide)⟩

/-- Witness for C2's amended statement at the program-order schedule. -/
theorem register_after_spawn_not_after_close_witness :
    Merge handlerEvents convEvents (handlerEvents ++ convEvents) ∧
      (precedes CacheEvent.spawnConversion CacheEvent.registerPath
          (handlerEvents ++ convEvents) = true ∧
        precedes CacheEvent.processReturn CacheEvent.registerPath
          (handlerEvents ++ convEvents) = true) :=
  ⟨merge_append handlerEvents convEvents,
    register_after_spawn_not_after_close (handlerEvents ++ convEvents)
      (merge_append handlerEvents convEvents)⟩

end Toujoubot
